import Mathlib

/-!
# Verification of the `rlife` crate

A shallow embedding of the `rlife` repository (Conway's Game of Life on a
fixed-size grid, `src/lib.rs`, plus the simulation scheduler loop of
`src/main.rs`), together with proofs of its specified properties.

`LifeGrid<W, H>` wraps `[[bool; W]; H]`, addressed row-major as `data[y][x]`;
we embed it as a function `Fin H → Fin W → Bool`.  The `Life` trait methods
(`set_cell`, `is_alive`, `width`, `height`, the default implementations
`number_of_neighbors` and `next_generation`) are translated directly from
`src/lib.rs`: `usize` becomes `Nat` (`saturating_sub` is `Nat` subtraction),
iterator pipelines become `List` pipelines, and the in-place mutation of the
`other` grid in `next_generation` becomes a left fold threading the target
grid through `set_cell` in the same iteration order as the Rust `for_each`.

The scheduler loop `sim_task` of `src/main.rs` is embedded as a state
machine: one constructor of `SimEvent` per observable outcome of the loop
body (a `try_recv` returning `Ok`, `Empty` at some wall-clock instant, or
`Disconnected`), and `simTask.step` performs exactly what the corresponding
`match` arm of the Rust loop does.
-/

namespace Rlife

/-- Embedding of `LifeGrid<W, H>` (`src/lib.rs`): a wrapper around the
row-major cell matrix `[[bool; W]; H]`, i.e. `data y x` is `data[y][x]`. -/
structure LifeGrid (W H : Nat) where
  data : Fin H → Fin W → Bool
  deriving DecidableEq

namespace LifeGrid

variable {W H W2 H2 : Nat}

/-- Embedding of `LifeGrid::default()`: every cell dead (`[[false; W]; H]`). -/
def mkDefault (W H : Nat) : LifeGrid W H := ⟨fun _ _ => false⟩

/-- Embedding of `Life::set_cell` for `LifeGrid`: `self.get_mut(y).and_then(|row| row.get_mut(x))`
succeeds exactly when `y < H` and `x < W`; then the entry is overwritten,
otherwise nothing happens. -/
def set_cell (g : LifeGrid W H) (x y : Nat) (b : Bool) : LifeGrid W H :=
  if _h : y < H ∧ x < W then
    ⟨fun ry rx => if ry.val = y ∧ rx.val = x then b else g.data ry rx⟩
  else g

/-- Embedding of `Life::is_alive` for `LifeGrid`:
`self.get(y).and_then(|row| row.get(x)).copied().unwrap_or(false)`. -/
def is_alive (g : LifeGrid W H) (x y : Nat) : Bool :=
  if h : y < H ∧ x < W then g.data ⟨y, h.1⟩ ⟨x, h.2⟩ else false

/-- Embedding of `Life::width` for `LifeGrid`: the const generic `W`. -/
def width (_ : LifeGrid W H) : Nat := W

/-- Embedding of `Life::height` for `LifeGrid`: the const generic `H`. -/
def height (_ : LifeGrid W H) : Nat := H

/-- The `range` closure of `number_of_neighbors`:
`v.saturating_sub(1)..=v.saturating_add(1)` as a list.  `Nat` subtraction is
saturating, and `List.range' s n` is `[s, s+1, ..., s+n-1]`, so this is
`[v-1, v, v+1]` for `v ≥ 1` and `[0, 1]` for `v = 0`. -/
def range1 (v : Nat) : List Nat := List.range' (v - 1) (v + 1 + 1 - (v - 1))

/-- Embedding of `Life::number_of_neighbors` (default trait method): the cartesian product
`range(x) × range(y)` via map/flatten, filtered to cells that are not the
cell itself and are alive, counted. -/
def number_of_neighbors (g : LifeGrid W H) (x y : Nat) : Nat :=
  ((((range1 x).map (fun rx => (range1 y).map (fun ry => (rx, ry)))).flatten).filter
    (fun p => !(p.1 == x && p.2 == y) && g.is_alive p.1 p.2)).length

/-- Embedding of `Life::next_generation` (default trait method): for each `(x, y)` in the
cartesian product `(0..self.width()) × (0..self.height())`, write into `other`
according to the match on `number_of_neighbors`.  The sequential `for_each`
over the mutable target becomes a left fold. -/
def next_generation (g : LifeGrid W H) (other : LifeGrid W2 H2) : LifeGrid W2 H2 :=
  (((List.range W).map (fun x => (List.range H).map (fun y => (x, y)))).flatten).foldl
    (fun acc p =>
      match g.number_of_neighbors p.1 p.2 with
      | 3 => acc.set_cell p.1 p.2 true                 -- rule for life
      | 2 => acc.set_cell p.1 p.2 (g.is_alive p.1 p.2) -- rule for stagnation
      | _ => acc.set_cell p.1 p.2 false)               -- rule for death
    other

/-- The value `next_generation` writes at `(x, y)`: the match on
`number_of_neighbors` of `src/lib.rs` lines 36–40, as a single value. -/
def ruleVal (g : LifeGrid W H) (x y : Nat) : Bool :=
  match g.number_of_neighbors x y with
  | 3 => true
  | 2 => g.is_alive x y
  | _ => false

/-- The neighbor count described by the specification for
`count_live_neighbors` (spec §4.1): the number of live cells among the
in-range cells at Chebyshev distance exactly 1 from `(x, y)`. -/
def mooreCount (g : LifeGrid W H) (x y : Nat) : Nat :=
  ((Finset.range W ×ˢ Finset.range H).filter
    (fun p => max (Nat.dist p.1 x) (Nat.dist p.2 y) = 1 ∧ g.is_alive p.1 p.2 = true)).card

/-- The standard Conway's Game of Life rule, as the specification describes
it: a cell is alive after the step iff it was alive with 2 or 3 live
neighbors, or dead with exactly 3 live neighbors. -/
def conwayRule (alive : Bool) (n : Nat) : Bool :=
  (alive && (n == 2 || n == 3)) || (!alive && n == 3)

/-- The grid whose live cells are exactly the 2×2 block with top-left corner
`(i, j)`: cells `(i, j)`, `(i+1, j)`, `(i, j+1)`, `(i+1, j+1)`. -/
def blockGrid (W H i j : Nat) : LifeGrid W H :=
  ⟨fun ry rx => decide ((rx.val = i ∨ rx.val = i + 1) ∧ (ry.val = j ∨ ry.val = j + 1))⟩

/-- The grid whose live cells are exactly the three horizontally adjacent
cells `(i, j)`, `(i+1, j)`, `(i+2, j)` (a horizontal blinker). -/
def blinkerH (W H i j : Nat) : LifeGrid W H :=
  ⟨fun ry rx => decide ((rx.val = i ∨ rx.val = i + 1 ∨ rx.val = i + 2) ∧ ry.val = j)⟩

/-- The grid whose live cells are exactly the three vertically adjacent
cells `(i+1, j-1)`, `(i+1, j)`, `(i+1, j+1)` (a vertical blinker, the image
of the horizontal one after one step). -/
def blinkerV (W H i j : Nat) : LifeGrid W H :=
  ⟨fun ry rx => decide (rx.val = i + 1 ∧ (ry.val = j - 1 ∨ ry.val = j ∨ ry.val = j + 1))⟩

end LifeGrid

/-! ## The scheduler of `src/main.rs` -/

/-- Embedding of `SIM_STEP_TIME`: time per simulation step, in milliseconds. -/
def SIM_STEP_TIME : Nat := 300

/-- The control states of the `sim_task` loop: `Running` is the ordinary
loop, `Paused` is the inner blocking `recv()` after a pause signal, and
`Stopped` is the `return` taken on channel disconnection. -/
inductive SimMode
  | Running
  | Paused
  | Stopped
  deriving DecidableEq

/-- The observable outcomes that drive one iteration of the `sim_task` loop:
`tick now` is an iteration where `try_recv` (or the blocking `recv` while
paused) sees no message and the wall clock reads `now`; `signal` is the
arrival of a `()` on the pause channel; `close` is the disconnection of the
channel. -/
inductive SimEvent
  | tick (now : Nat)
  | signal
  | close
  deriving DecidableEq

/-- The state carried across iterations of `sim_task`: the control mode, the
shared current grid (`grid : Arc<RwLock<Box<T>>>`), the private scratch grid,
and `last_update` (the `Instant` of the last generation swap, as
milliseconds of wall-clock time). -/
structure SchedState (W H : Nat) where
  mode : SimMode
  grid : LifeGrid W H
  scratch : LifeGrid W H
  lastUpdate : Nat
  deriving DecidableEq

namespace SchedState

variable {W H : Nat}

/-- One iteration of the `sim_task` loop of `src/main.rs`, driven by an
event.  While `Running`: a `signal` is `try_recv() = Ok(_)`, entering the
blocking `recv()` (mode `Paused`); `close` is `TryRecvError::Disconnected`,
returning (mode `Stopped`); `tick now` is `TryRecvError::Empty` — if
`SIM_STEP_TIME <= now - last_update` it computes the next generation into
the scratch grid, swaps it with the current grid, and resets `last_update`,
otherwise it does nothing.  While `Paused` (blocked in `recv()`): a `signal`
resumes, `close` makes `recv` return `Err` after which the next `try_recv`
yields `Disconnected` and the task returns, and the passage of time
(`tick`) does nothing.  `Stopped` is terminal. -/
def step (s : SchedState W H) (e : SimEvent) : SchedState W H :=
  match s.mode, e with
  | .Stopped, _ => s
  | .Paused, .tick _ => s
  | .Paused, .signal => { s with mode := .Running }
  | .Paused, .close => { s with mode := .Stopped }
  | .Running, .signal => { s with mode := .Paused }
  | .Running, .close => { s with mode := .Stopped }
  | .Running, .tick now =>
    if SIM_STEP_TIME ≤ now - s.lastUpdate then
      { s with
        grid := s.grid.next_generation s.scratch
        scratch := s.grid
        lastUpdate := now }
    else s

/-- Running a list of events through the scheduler. -/
def run (s : SchedState W H) (es : List SimEvent) : SchedState W H :=
  es.foldl step s

end SchedState

/-! ## Basic lemmas about grid reads and writes -/

namespace LifeGrid

variable {W H W2 H2 : Nat}

theorem is_alive_of_not_lt (g : LifeGrid W H) {x y : Nat} (h : W ≤ x ∨ H ≤ y) :
    g.is_alive x y = false := by
  unfold is_alive
  rw [dif_neg]
  omega

theorem set_cell_of_not_lt (g : LifeGrid W H) {x y : Nat} (b : Bool) (h : W ≤ x ∨ H ≤ y) :
    g.set_cell x y b = g := by
  unfold set_cell
  rw [dif_neg]
  omega

theorem is_alive_in_range (g : LifeGrid W H) {x y : Nat} (hx : x < W) (hy : y < H) :
    g.is_alive x y = g.data ⟨y, hy⟩ ⟨x, hx⟩ := by
  unfold is_alive
  rw [dif_pos ⟨hy, hx⟩]

theorem lt_of_is_alive {g : LifeGrid W H} {x y : Nat} (h : g.is_alive x y = true) :
    x < W ∧ y < H := by
  by_contra hc
  rw [g.is_alive_of_not_lt (by omega)] at h
  exact Bool.false_ne_true h

theorem is_alive_set_cell_self (g : LifeGrid W H) {x y : Nat} (b : Bool)
    (hx : x < W) (hy : y < H) : (g.set_cell x y b).is_alive x y = b := by
  unfold set_cell
  rw [dif_pos ⟨hy, hx⟩, is_alive_in_range _ hx hy]
  simp

theorem is_alive_set_cell_of_ne (g : LifeGrid W H) {x y a b : Nat} (v : Bool)
    (h : ¬(a = x ∧ b = y)) : (g.set_cell x y v).is_alive a b = g.is_alive a b := by
  unfold set_cell
  split
  · next hin =>
    unfold is_alive
    split
    · next hab =>
      have hne : ¬(b = y ∧ a = x) := by omega
      simp [hne]
    · rfl
  · rfl

theorem eq_of_is_alive_eq {g1 g2 : LifeGrid W H}
    (h : ∀ x y, x < W → y < H → g1.is_alive x y = g2.is_alive x y) : g1 = g2 := by
  cases g1 with
  | mk d1 =>
    cases g2 with
    | mk d2 =>
      simp only [mk.injEq]
      funext ry rx
      have hxy := h rx.val ry.val rx.isLt ry.isLt
      rwa [is_alive_in_range _ rx.isLt ry.isLt, is_alive_in_range _ rx.isLt ry.isLt,
        Fin.eta, Fin.eta] at hxy

/-! ## Per-cell characterization of `next_generation` -/

theorem mem_prod_flatten {l1 l2 : List Nat} {p : Nat × Nat} :
    (p ∈ ((l1.map (fun a => l2.map (fun b => (a, b)))).flatten)) ↔ p.1 ∈ l1 ∧ p.2 ∈ l2 := by
  rcases p with ⟨a, b⟩
  simp only [List.mem_flatten, List.mem_map]
  constructor
  · rintro ⟨l, ⟨u, hu, rfl⟩, hab⟩
    rcases List.mem_map.mp hab with ⟨v, hv, hvab⟩
    cases hvab
    exact ⟨hu, hv⟩
  · rintro ⟨ha, hb⟩
    exact ⟨l2.map (fun v => (a, v)), ⟨a, ha, rfl⟩, List.mem_map.mpr ⟨b, hb, rfl⟩⟩

theorem next_generation_eq_foldl (g : LifeGrid W H) (other : LifeGrid W2 H2) :
    g.next_generation other =
      (((List.range W).map (fun x => (List.range H).map (fun y => (x, y)))).flatten).foldl
        (fun acc p => acc.set_cell p.1 p.2 (g.ruleVal p.1 p.2)) other := by
  unfold next_generation
  congr 1
  funext acc p
  simp only [ruleVal]
  generalize g.number_of_neighbors p.1 p.2 = m
  rcases m with _ | _ | _ | _ | m <;> rfl

theorem is_alive_foldl_set (g : LifeGrid W H) (L : List (Nat × Nat))
    (other : LifeGrid W2 H2) (x y : Nat) :
    ((L.foldl (fun acc p => acc.set_cell p.1 p.2 (g.ruleVal p.1 p.2)) other).is_alive x y) =
      if (x, y) ∈ L ∧ x < W2 ∧ y < H2 then g.ruleVal x y else other.is_alive x y := by
  induction L generalizing other with
  | nil => simp
  | cons p rest ih =>
    rw [List.foldl_cons, ih]
    by_cases hr : x < W2 ∧ y < H2
    · by_cases hmem : (x, y) ∈ rest
      · rw [if_pos ⟨hmem, hr⟩, if_pos ⟨List.mem_cons_of_mem _ hmem, hr⟩]
      · rw [if_neg (fun hc => hmem hc.1)]
        by_cases hp : p.1 = x ∧ p.2 = y
        · have hpxy : p = (x, y) := by
            rcases p with ⟨a, b⟩
            simp only [Prod.mk.injEq]
            exact hp
          subst hpxy
          rw [if_pos ⟨List.mem_cons_self _ _, hr⟩, is_alive_set_cell_self _ _ hr.1 hr.2]
        · rw [is_alive_set_cell_of_ne _ _ (fun hc => hp ⟨hc.1.symm, hc.2.symm⟩), if_neg]
          rintro ⟨hmc, -⟩
          rcases List.mem_cons.mp hmc with hc | hc
          · rcases p with ⟨a, b⟩
            cases hc
            exact hp ⟨rfl, rfl⟩
          · exact hmem hc
    · rw [if_neg (fun hc => hr hc.2), if_neg (fun hc => hr hc.2),
        is_alive_of_not_lt _ (by omega), is_alive_of_not_lt _ (by omega)]

theorem is_alive_next_generation (g : LifeGrid W H) (other : LifeGrid W2 H2) (x y : Nat) :
    (g.next_generation other).is_alive x y =
      if (x < W ∧ y < H) ∧ x < W2 ∧ y < H2 then g.ruleVal x y else other.is_alive x y := by
  rw [next_generation_eq_foldl, is_alive_foldl_set]
  have hmem : ((x, y) ∈
      (((List.range W).map (fun x => (List.range H).map (fun y => (x, y)))).flatten)) ↔
      x < W ∧ y < H := by
    rw [mem_prod_flatten]
    simp [List.mem_range]
  simp only [hmem]

theorem is_alive_next_generation_self (g other : LifeGrid W H) {x y : Nat}
    (hx : x < W) (hy : y < H) :
    (g.next_generation other).is_alive x y = g.ruleVal x y := by
  rw [is_alive_next_generation, if_pos ⟨⟨hx, hy⟩, hx, hy⟩]

/-! ## `number_of_neighbors` as a Chebyshev-distance count -/

theorem range1_zero : range1 0 = [0, 1] := rfl

theorem range1_succ (v : Nat) : range1 (v + 1) = [v, v + 1, v + 2] := by
  have e1 : v + 1 - 1 = v := rfl
  rw [range1, e1]
  have e2 : v + 1 + 1 + 1 - v = 3 := by omega
  rw [e2]
  simp [List.range']

theorem mem_range1 {a v : Nat} : a ∈ range1 v ↔ Nat.dist a v ≤ 1 := by
  rcases v with _ | v
  · rw [range1_zero]
    simp [Nat.dist]
    omega
  · rw [range1_succ]
    simp [Nat.dist]
    omega

theorem nodup_range1 (v : Nat) : (range1 v).Nodup := List.nodup_range' _ _

theorem number_of_neighbors_eq_mooreCount (g : LifeGrid W H) (x y : Nat) :
    g.number_of_neighbors x y = g.mooreCount x y := by
  have hprod : (((range1 x).map (fun rx => (range1 y).map (fun ry => (rx, ry)))).flatten) =
      (range1 x) ×ˢ (range1 y) := rfl
  have hnodup : ((range1 x) ×ˢ (range1 y)).Nodup :=
    (nodup_range1 x).product (nodup_range1 y)
  rw [number_of_neighbors, hprod, mooreCount,
    ← List.toFinset_card_of_nodup (hnodup.filter _), List.toFinset_filter]
  congr 1
  apply Finset.ext
  rintro ⟨a, b⟩
  simp only [List.mem_toFinset, Finset.mem_filter, List.mem_product, mem_range1,
    Finset.mem_product, Finset.mem_range, Bool.and_eq_true, Bool.not_eq_true',
    Bool.and_eq_false_iff, beq_eq_false_iff_ne, ne_eq, beq_iff_eq]
  constructor
  · rintro ⟨⟨hax, hby⟩, hc, halive⟩
    have hlt := lt_of_is_alive halive
    refine ⟨⟨hlt.1, hlt.2⟩, ?_, halive⟩
    rcases hc with hc | hc <;> simp [Nat.dist] at hax hby ⊢ <;> omega
  · rintro ⟨⟨haW, hbH⟩, hdist, halive⟩
    refine ⟨⟨?_, ?_⟩, ?_, halive⟩ <;> simp [Nat.dist] at hdist ⊢ <;> omega

theorem number_of_neighbors_le_8 (g : LifeGrid W H) (x y : Nat) :
    g.number_of_neighbors x y ≤ 8 := by
  have hprod : (((range1 x).map (fun rx => (range1 y).map (fun ry => (rx, ry)))).flatten) =
      (range1 x) ×ˢ (range1 y) := rfl
  rw [number_of_neighbors, hprod]
  have hlt : (((range1 x) ×ˢ (range1 y)).filter
      (fun p => !(p.1 == x && p.2 == y) && g.is_alive p.1 p.2)).length <
      ((range1 x) ×ˢ (range1 y)).length := by
    rw [List.length_filter_lt_length_iff_exists]
    refine ⟨(x, y), ?_, ?_⟩
    · rw [List.mem_product]
      constructor <;> rw [mem_range1] <;> simp [Nat.dist]
    · simp
  have hlen : ((range1 x) ×ˢ (range1 y)).length ≤ 9 := by
    rw [List.length_product]
    have h1 : (range1 x).length ≤ 3 := by rw [range1, List.length_range']; omega
    have h2 : (range1 y).length ≤ 3 := by rw [range1, List.length_range']; omega
    have := Nat.mul_le_mul h1 h2
    omega
  omega

theorem ruleVal_eq_ite (g : LifeGrid W H) (x y : Nat) :
    g.ruleVal x y =
      (if g.number_of_neighbors x y = 3 then true
       else if g.number_of_neighbors x y = 2 then g.is_alive x y
       else false) := by
  unfold ruleVal
  generalize g.number_of_neighbors x y = m
  rcases m with _ | _ | _ | _ | m <;> simp

/-! ## Neighbor counts of grids with finitely many listed live cells -/

theorem mooreCount_eq_filter_length (g : LifeGrid W H) (pts : List (Nat × Nat))
    (hnd : pts.Nodup)
    (hiff : ∀ a b : Nat, g.is_alive a b = true ↔ (a, b) ∈ pts) (x y : Nat) :
    g.mooreCount x y =
      (pts.filter (fun q => max (Nat.dist q.1 x) (Nat.dist q.2 y) == 1)).length := by
  rw [mooreCount, ← List.toFinset_card_of_nodup (hnd.filter _), List.toFinset_filter]
  congr 1
  apply Finset.ext
  rintro ⟨a, b⟩
  simp only [Finset.mem_filter, Finset.mem_product, Finset.mem_range, List.mem_toFinset,
    beq_iff_eq]
  constructor
  · rintro ⟨⟨haW, hbH⟩, hd, halive⟩
    exact ⟨(hiff a b).mp halive, hd⟩
  · rintro ⟨hmem, hd⟩
    have halive := (hiff a b).mpr hmem
    have hlt := lt_of_is_alive halive
    exact ⟨⟨hlt.1, hlt.2⟩, hd, halive⟩

theorem is_alive_blockGrid {i j : Nat} (hW : i + 1 < W) (hH : j + 1 < H) (a b : Nat) :
    (blockGrid W H i j).is_alive a b =
      decide ((a = i ∨ a = i + 1) ∧ (b = j ∨ b = j + 1)) := by
  by_cases hr : b < H ∧ a < W
  · rw [is_alive_in_range _ hr.2 hr.1]
    rfl
  · rw [is_alive_of_not_lt _ (by omega)]
    symm
    simp only [decide_eq_false_iff_not]
    omega

theorem alive_iff_mem_blockPts {i j : Nat} (hW : i + 1 < W) (hH : j + 1 < H)
    (a b : Nat) :
    (blockGrid W H i j).is_alive a b = true ↔
      (a, b) ∈ [(i, j), (i + 1, j), (i, j + 1), (i + 1, j + 1)] := by
  rw [is_alive_blockGrid hW hH, decide_eq_true_eq]
  simp only [List.mem_cons, List.not_mem_nil, or_false, Prod.mk.injEq]
  omega

theorem blockPts_nodup (i j : Nat) :
    ([(i, j), (i + 1, j), (i, j + 1), (i + 1, j + 1)] : List (Nat × Nat)).Nodup := by
  simp only [List.nodup_cons, List.mem_cons, List.not_mem_nil, or_false, Prod.mk.injEq,
    List.nodup_nil, and_true, not_or]
  constructor
  · exact ⟨by omega, by omega, by omega⟩
  constructor
  · exact ⟨by omega, by omega⟩
  constructor
  · omega
  · exact fun h => h

theorem ruleVal_blockGrid {i j : Nat} (hW : i + 1 < W) (hH : j + 1 < H) (x y : Nat) :
    (blockGrid W H i j).ruleVal x y = (blockGrid W H i j).is_alive x y := by
  have hd : ∀ a b : Nat, Nat.dist a b = a - b + (b - a) := fun a b => rfl
  rw [ruleVal_eq_ite, number_of_neighbors_eq_mooreCount,
    mooreCount_eq_filter_length _ _ (blockPts_nodup i j)
      (fun a b => alive_iff_mem_blockPts hW hH a b) x y,
    is_alive_blockGrid hW hH]
  simp only [List.filter_cons, List.filter_nil, beq_iff_eq]
  by_cases h1 : max (Nat.dist i x) (Nat.dist j y) = 1 <;>
    by_cases h2 : max (Nat.dist (i + 1) x) (Nat.dist j y) = 1 <;>
      by_cases h3 : max (Nat.dist i x) (Nat.dist (j + 1) y) = 1 <;>
        by_cases h4 : max (Nat.dist (i + 1) x) (Nat.dist (j + 1) y) = 1 <;>
          simp only [h1, h2, h3, h4, if_true, if_false, eq_self_iff_true, ite_true,
            ite_false, List.length_cons, List.length_nil] <;>
          simp only [hd] at h1 h2 h3 h4 <;>
          norm_num [decide_eq_true_eq, decide_eq_false_iff_not, decide_eq_decide] <;>
          omega

theorem is_alive_blinkerH {i j : Nat} (hW : i + 2 < W) (_hj : 1 ≤ j) (hH : j + 1 < H)
    (a b : Nat) :
    (blinkerH W H i j).is_alive a b =
      decide ((a = i ∨ a = i + 1 ∨ a = i + 2) ∧ b = j) := by
  by_cases hr : b < H ∧ a < W
  · rw [is_alive_in_range _ hr.2 hr.1]
    rfl
  · rw [is_alive_of_not_lt _ (by omega)]
    symm
    simp only [decide_eq_false_iff_not]
    omega

theorem is_alive_blinkerV {i j : Nat} (hW : i + 2 < W) (hj : 1 ≤ j) (hH : j + 1 < H)
    (a b : Nat) :
    (blinkerV W H i j).is_alive a b =
      decide (a = i + 1 ∧ (b = j - 1 ∨ b = j ∨ b = j + 1)) := by
  by_cases hr : b < H ∧ a < W
  · rw [is_alive_in_range _ hr.2 hr.1]
    rfl
  · rw [is_alive_of_not_lt _ (by omega)]
    symm
    simp only [decide_eq_false_iff_not]
    omega

theorem alive_iff_mem_blinkerHPts {i j : Nat} (hW : i + 2 < W) (hj : 1 ≤ j)
    (hH : j + 1 < H) (a b : Nat) :
    (blinkerH W H i j).is_alive a b = true ↔
      (a, b) ∈ [(i, j), (i + 1, j), (i + 2, j)] := by
  rw [is_alive_blinkerH hW hj hH, decide_eq_true_eq]
  simp only [List.mem_cons, List.not_mem_nil, or_false, Prod.mk.injEq]
  omega

theorem alive_iff_mem_blinkerVPts {i j : Nat} (hW : i + 2 < W) (hj : 1 ≤ j)
    (hH : j + 1 < H) (a b : Nat) :
    (blinkerV W H i j).is_alive a b = true ↔
      (a, b) ∈ [(i + 1, j - 1), (i + 1, j), (i + 1, j + 1)] := by
  rw [is_alive_blinkerV hW hj hH, decide_eq_true_eq]
  simp only [List.mem_cons, List.not_mem_nil, or_false, Prod.mk.injEq]
  omega

theorem blinkerHPts_nodup (i j : Nat) :
    ([(i, j), (i + 1, j), (i + 2, j)] : List (Nat × Nat)).Nodup := by
  simp only [List.nodup_cons, List.mem_cons, List.not_mem_nil, or_false, Prod.mk.injEq,
    List.nodup_nil, and_true, not_or]
  constructor
  · exact ⟨by omega, by omega⟩
  constructor
  · omega
  · exact fun h => h

theorem blinkerVPts_nodup {i j : Nat} (hj : 1 ≤ j) :
    ([(i + 1, j - 1), (i + 1, j), (i + 1, j + 1)] : List (Nat × Nat)).Nodup := by
  simp only [List.nodup_cons, List.mem_cons, List.not_mem_nil, or_false, Prod.mk.injEq,
    List.nodup_nil, and_true, not_or]
  constructor
  · exact ⟨by omega, by omega⟩
  constructor
  · omega
  · exact fun h => h

theorem ruleVal_blinkerH {i j : Nat} (hW : i + 2 < W) (hj : 1 ≤ j) (hH : j + 1 < H)
    (x y : Nat) :
    (blinkerH W H i j).ruleVal x y = (blinkerV W H i j).is_alive x y := by
  have hd : ∀ a b : Nat, Nat.dist a b = a - b + (b - a) := fun a b => rfl
  rw [ruleVal_eq_ite, number_of_neighbors_eq_mooreCount,
    mooreCount_eq_filter_length _ _ (blinkerHPts_nodup i j)
      (fun a b => alive_iff_mem_blinkerHPts hW hj hH a b) x y,
    is_alive_blinkerH hW hj hH, is_alive_blinkerV hW hj hH]
  simp only [List.filter_cons, List.filter_nil, beq_iff_eq]
  by_cases h1 : max (Nat.dist i x) (Nat.dist j y) = 1 <;>
    by_cases h2 : max (Nat.dist (i + 1) x) (Nat.dist j y) = 1 <;>
      by_cases h3 : max (Nat.dist (i + 2) x) (Nat.dist j y) = 1 <;>
        simp only [h1, h2, h3, if_true, if_false, eq_self_iff_true, ite_true,
          ite_false, List.length_cons, List.length_nil] <;>
        simp only [hd] at h1 h2 h3 <;>
        norm_num [decide_eq_true_eq, decide_eq_false_iff_not, decide_eq_decide] <;>
        first
          | omega
          | (rw [Bool.eq_iff_iff]
             simp only [Bool.and_eq_true, Bool.or_eq_true, decide_eq_true_eq]
             omega)

theorem ruleVal_blinkerV {i j : Nat} (hW : i + 2 < W) (hj : 1 ≤ j) (hH : j + 1 < H)
    (x y : Nat) :
    (blinkerV W H i j).ruleVal x y = (blinkerH W H i j).is_alive x y := by
  have hd : ∀ a b : Nat, Nat.dist a b = a - b + (b - a) := fun a b => rfl
  rw [ruleVal_eq_ite, number_of_neighbors_eq_mooreCount,
    mooreCount_eq_filter_length _ _ (blinkerVPts_nodup hj)
      (fun a b => alive_iff_mem_blinkerVPts hW hj hH a b) x y,
    is_alive_blinkerV hW hj hH, is_alive_blinkerH hW hj hH]
  simp only [List.filter_cons, List.filter_nil, beq_iff_eq]
  by_cases h1 : max (Nat.dist (i + 1) x) (Nat.dist (j - 1) y) = 1 <;>
    by_cases h2 : max (Nat.dist (i + 1) x) (Nat.dist j y) = 1 <;>
      by_cases h3 : max (Nat.dist (i + 1) x) (Nat.dist (j + 1) y) = 1 <;>
        simp only [h1, h2, h3, if_true, if_false, eq_self_iff_true, ite_true,
          ite_false, List.length_cons, List.length_nil] <;>
        simp only [hd] at h1 h2 h3 <;>
        norm_num [decide_eq_true_eq, decide_eq_false_iff_not, decide_eq_decide] <;>
        first
          | omega
          | (rw [Bool.eq_iff_iff]
             simp only [Bool.and_eq_true, Bool.or_eq_true, decide_eq_true_eq]
             omega)

theorem step_blinkerH {i j : Nat} (other : LifeGrid W H) (hW : i + 2 < W) (hj : 1 ≤ j)
    (hH : j + 1 < H) :
    (blinkerH W H i j).next_generation other = blinkerV W H i j := by
  apply eq_of_is_alive_eq
  intro x y hx hy
  rw [is_alive_next_generation_self _ _ hx hy, ruleVal_blinkerH hW hj hH]

theorem step_blinkerV {i j : Nat} (other : LifeGrid W H) (hW : i + 2 < W) (hj : 1 ≤ j)
    (hH : j + 1 < H) :
    (blinkerV W H i j).next_generation other = blinkerH W H i j := by
  apply eq_of_is_alive_eq
  intro x y hx hy
  rw [is_alive_next_generation_self _ _ hx hy, ruleVal_blinkerV hW hj hH]

end LifeGrid

/-! ## The claims about the grid operations -/

namespace LifeGrid

variable {W H : Nat}

/-- C1: for every grid `self` and every in-range coordinate `(x, y)`, after
`next_generation(self, other)` the cell `(x, y)` of `other` is alive if
`number_of_neighbors(self, x, y) == 3`, equal to `self`'s state at `(x, y)`
if the count is 2, and dead for any other count.  `self` is taken by `&self`
and is embedded as a pure (unmodified) argument, so it is not modified by
the operation. -/
theorem step_cell_rule (g other : LifeGrid W H) (x y : Nat)
    (hx : x < W) (hy : y < H) :
    (g.next_generation other).is_alive x y =
      (if g.number_of_neighbors x y = 3 then true
       else if g.number_of_neighbors x y = 2 then g.is_alive x y
       else false) := by
  rw [is_alive_next_generation_self g other hx hy, ruleVal_eq_ite]

theorem step_cell_rule_witness :
    (1 < 3 ∧ 1 < 3) ∧
      ((mkDefault 3 3).next_generation (mkDefault 3 3)).is_alive 1 1 =
        (if (mkDefault 3 3).number_of_neighbors 1 1 = 3 then true
         else if (mkDefault 3 3).number_of_neighbors 1 1 = 2 then
           (mkDefault 3 3).is_alive 1 1
         else false) :=
  ⟨⟨by decide, by decide⟩, step_cell_rule (mkDefault 3 3) (mkDefault 3 3) 1 1
    (by decide) (by decide)⟩

/-- C2: for every grid and every coordinate `(x, y)` with `x ≥ W` or
`y ≥ H`, `is_alive(x, y)` returns `false`, and `set_cell(x, y, b)` leaves
the entire grid unchanged. -/
theorem out_of_range_read_write (g : LifeGrid W H) (x y : Nat) (b : Bool)
    (h : W ≤ x ∨ H ≤ y) :
    g.is_alive x y = false ∧ g.set_cell x y b = g :=
  ⟨g.is_alive_of_not_lt h, g.set_cell_of_not_lt b h⟩

theorem out_of_range_read_write_witness :
    (2 ≤ 5 ∨ 2 ≤ 0) ∧
      ((mkDefault 2 2).is_alive 5 0 = false ∧
        (mkDefault 2 2).set_cell 5 0 true = mkDefault 2 2) :=
  ⟨Or.inl (by decide), out_of_range_read_write (mkDefault 2 2) 5 0 true
    (Or.inl (by decide))⟩

/-- C3: for every grid and every in-range coordinate, `number_of_neighbors`
equals the number of live cells among the at most 8 in-range cells at
Chebyshev distance exactly 1 (the cell itself excluded, out-of-grid
positions excluded rather than wrapped), the result is at most 8, and on a
3×3 grid whose only live cell is `(1, 1)` the count at `(0, 0)` is 1. -/
theorem count_live_neighbors_spec (g : LifeGrid W H) (x y : Nat)
    (_hx : x < W) (_hy : y < H) :
    g.number_of_neighbors x y = g.mooreCount x y ∧
      g.number_of_neighbors x y ≤ 8 ∧
      ((mkDefault 3 3).set_cell 1 1 true).number_of_neighbors 0 0 = 1 :=
  ⟨g.number_of_neighbors_eq_mooreCount x y, g.number_of_neighbors_le_8 x y, by decide⟩

theorem count_live_neighbors_spec_witness :
    (0 < 3 ∧ 0 < 3) ∧
      ((mkDefault 3 3).number_of_neighbors 0 0 = (mkDefault 3 3).mooreCount 0 0 ∧
        (mkDefault 3 3).number_of_neighbors 0 0 ≤ 8 ∧
        ((mkDefault 3 3).set_cell 1 1 true).number_of_neighbors 0 0 = 1) :=
  ⟨⟨by decide, by decide⟩, count_live_neighbors_spec (mkDefault 3 3) 0 0
    (by decide) (by decide)⟩

/-- C4: the step rule as implemented (count 3 → alive, count 2 → keep,
otherwise dead) agrees, at every in-range cell, with the standard Conway
rule: alive after the step iff alive with 2 or 3 live neighbors, or dead
with exactly 3. -/
theorem step_equiv_conway (g other : LifeGrid W H) (x y : Nat)
    (hx : x < W) (hy : y < H) :
    (g.next_generation other).is_alive x y =
      conwayRule (g.is_alive x y) (g.number_of_neighbors x y) := by
  rw [is_alive_next_generation_self g other hx hy]
  unfold ruleVal conwayRule
  generalize g.number_of_neighbors x y = m
  rcases m with _ | _ | _ | _ | m <;> rcases h : g.is_alive x y <;> simp [h]

theorem step_equiv_conway_witness :
    (1 < 3 ∧ 1 < 3) ∧
      ((mkDefault 3 3).next_generation (mkDefault 3 3)).is_alive 1 1 =
        conwayRule ((mkDefault 3 3).is_alive 1 1)
          ((mkDefault 3 3).number_of_neighbors 1 1) :=
  ⟨⟨by decide, by decide⟩, step_equiv_conway (mkDefault 3 3) (mkDefault 3 3) 1 1
    (by decide) (by decide)⟩

/-- C9: `next_generation` fully rewrites its target — for one source grid
and two target grids of the same dimensions, the results coincide, so the
result is determined by the source alone, independent of the target's prior
contents. -/
theorem step_target_independent (g other1 other2 : LifeGrid W H) :
    g.next_generation other1 = g.next_generation other2 := by
  apply eq_of_is_alive_eq
  intro x y hx hy
  rw [is_alive_next_generation_self g _ hx hy, is_alive_next_generation_self g _ hx hy]

/-- C10: an in-range `set_cell(x, y, b)` makes `is_alive(x, y)` return `b`,
leaves every other cell unchanged, and leaves `width()` and `height()`
unchanged. -/
theorem set_cell_frame (g : LifeGrid W H) (x y a c : Nat) (b : Bool)
    (hx : x < W) (hy : y < H) (hne : ¬(a = x ∧ c = y)) :
    (g.set_cell x y b).is_alive x y = b ∧
      (g.set_cell x y b).is_alive a c = g.is_alive a c ∧
      (g.set_cell x y b).width = g.width ∧
      (g.set_cell x y b).height = g.height :=
  ⟨g.is_alive_set_cell_self b hx hy, g.is_alive_set_cell_of_ne b hne, rfl, rfl⟩

theorem set_cell_frame_witness :
    (1 < 3 ∧ 2 < 3 ∧ ¬((0 : Nat) = 1 ∧ (2 : Nat) = 2)) ∧
      (((mkDefault 3 3).set_cell 1 2 true).is_alive 1 2 = true ∧
        ((mkDefault 3 3).set_cell 1 2 true).is_alive 0 2 = (mkDefault 3 3).is_alive 0 2 ∧
        ((mkDefault 3 3).set_cell 1 2 true).width = (mkDefault 3 3).width ∧
        ((mkDefault 3 3).set_cell 1 2 true).height = (mkDefault 3 3).height) :=
  ⟨⟨by decide, by decide, by decide⟩,
    set_cell_frame (mkDefault 3 3) 1 2 0 2 true (by decide) (by decide) (by decide)⟩

/-- C7: a 2×2 block of four live cells placed fully inside the grid (all
other cells dead) is a still life: one application of `next_generation`
reproduces exactly the block grid, whatever the prior contents of the
target grid. -/
theorem block_still_life (other : LifeGrid W H) {i j : Nat}
    (hW : i + 1 < W) (hH : j + 1 < H) :
    (blockGrid W H i j).next_generation other = blockGrid W H i j := by
  apply eq_of_is_alive_eq
  intro x y hx hy
  rw [is_alive_next_generation_self _ _ hx hy, ruleVal_blockGrid hW hH]

theorem block_still_life_witness :
    (1 + 1 < 4 ∧ 1 + 1 < 4) ∧
      (blockGrid 4 4 1 1).next_generation (mkDefault 4 4) = blockGrid 4 4 1 1 :=
  ⟨⟨by decide, by decide⟩, block_still_life (mkDefault 4 4) (by decide) (by decide)⟩

/-- C8: a horizontal three-in-a-row blinker placed away from the edges
(`i + 2 < W`, `1 ≤ j`, `j + 1 < H`, all other cells dead) oscillates with
period 2: two applications of `next_generation` return the original grid,
while one application changes it. -/
theorem blinker_period_two (other1 other2 : LifeGrid W H) {i j : Nat}
    (hW : i + 2 < W) (hj : 1 ≤ j) (hH : j + 1 < H) :
    ((blinkerH W H i j).next_generation other1).next_generation other2 =
        blinkerH W H i j ∧
      (blinkerH W H i j).next_generation other1 ≠ blinkerH W H i j := by
  have h1 : (blinkerH W H i j).next_generation other1 = blinkerV W H i j :=
    step_blinkerH other1 hW hj hH
  constructor
  · rw [h1]
    exact step_blinkerV other2 hW hj hH
  · rw [h1]
    intro heq
    have hc := congrArg (fun g => g.is_alive i j) heq
    simp only at hc
    rw [is_alive_blinkerV hW hj hH, is_alive_blinkerH hW hj hH] at hc
    simp at hc

theorem blinker_period_two_witness :
    (1 + 2 < 5 ∧ 1 ≤ 2 ∧ 2 + 1 < 5) ∧
      (((blinkerH 5 5 1 2).next_generation (mkDefault 5 5)).next_generation
          (mkDefault 5 5) = blinkerH 5 5 1 2 ∧
        (blinkerH 5 5 1 2).next_generation (mkDefault 5 5) ≠ blinkerH 5 5 1 2) :=
  ⟨⟨by decide, by decide, by decide⟩,
    blinker_period_two (mkDefault 5 5) (mkDefault 5 5) (by decide) (by decide) (by decide)⟩

end LifeGrid

/-! ## The claims about the scheduler -/

namespace SchedState

theorem step_paused_tick {W H : Nat} {s : SchedState W H} (h : s.mode = .Paused)
    (t : Nat) : s.step (.tick t) = s := by
  rcases s with ⟨m, g, c, l⟩
  cases h
  rfl

theorem run_paused_ticks {W H : Nat} {s : SchedState W H} (h : s.mode = .Paused)
    (ticks : List Nat) : SchedState.run s (ticks.map SimEvent.tick) = s := by
  induction ticks with
  | nil => rfl
  | cons t ts ih =>
    rw [List.map_cons, run, List.foldl_cons, step_paused_tick h t]
    exact ih

theorem step_running_tick_ge {W H : Nat} (g c : LifeGrid W H) (l now : Nat)
    (h : SIM_STEP_TIME ≤ now - l) :
    SchedState.step ⟨.Running, g, c, l⟩ (.tick now) =
      ⟨.Running, g.next_generation c, g, now⟩ := by
  show (if SIM_STEP_TIME ≤ now - l then _ else _) = _
  rw [if_pos h]

theorem step_running_tick_lt {W H : Nat} (g c : LifeGrid W H) (l now : Nat)
    (h : ¬SIM_STEP_TIME ≤ now - l) :
    SchedState.step ⟨.Running, g, c, l⟩ (.tick now) = ⟨.Running, g, c, l⟩ := by
  show (if SIM_STEP_TIME ≤ now - l then _ else _) = _
  rw [if_neg h]

/-- C5: while the scheduler is paused, any sequence of wall-clock tick
iterations leaves the scheduler state (in particular the shared grid)
completely unchanged; a resume signal returns it to `Running` with the grid
untouched, and the next tick whose elapsed time reaches the step interval
performs exactly one generation swap (the grid becomes the next generation,
the old grid becomes the scratch target, the timer resets), after which a
further tick within the interval changes nothing. -/
theorem pause_resume_behavior {W H : Nat} (s : SchedState W H) (ticks : List Nat)
    (now now2 : Nat) (hmode : s.mode = .Paused)
    (hnow : SIM_STEP_TIME ≤ now - s.lastUpdate)
    (hnow2 : now2 - now < SIM_STEP_TIME) :
    SchedState.run s (ticks.map SimEvent.tick) = s ∧
      (s.step .signal).mode = .Running ∧
      (s.step .signal).grid = s.grid ∧
      (s.step .signal).step (.tick now) =
        { mode := .Running,
          grid := (s.step .signal).grid.next_generation (s.step .signal).scratch,
          scratch := (s.step .signal).grid,
          lastUpdate := now } ∧
      ((s.step .signal).step (.tick now)).step (.tick now2) =
        (s.step .signal).step (.tick now) := by
  refine ⟨run_paused_ticks hmode ticks, ?_⟩
  rcases s with ⟨m, g, c, l⟩
  cases hmode
  simp only at hnow
  refine ⟨rfl, rfl, ?_, ?_⟩
  · show SchedState.step ⟨.Running, g, c, l⟩ (.tick now) =
      ⟨.Running, g.next_generation c, g, now⟩
    exact step_running_tick_ge g c l now hnow
  · show SchedState.step (SchedState.step ⟨.Running, g, c, l⟩ (.tick now)) (.tick now2) =
      SchedState.step ⟨.Running, g, c, l⟩ (.tick now)
    rw [step_running_tick_ge g c l now hnow]
    exact step_running_tick_lt _ _ _ _ (by omega)

theorem pause_resume_behavior_witness :
    ((⟨.Paused, LifeGrid.mkDefault 1 1, LifeGrid.mkDefault 1 1, 0⟩ :
        SchedState 1 1).mode = .Paused ∧
      SIM_STEP_TIME ≤ 300 - (⟨.Paused, LifeGrid.mkDefault 1 1, LifeGrid.mkDefault 1 1, 0⟩ :
        SchedState 1 1).lastUpdate ∧
      400 - 300 < SIM_STEP_TIME) ∧
      (SchedState.run (⟨.Paused, LifeGrid.mkDefault 1 1, LifeGrid.mkDefault 1 1, 0⟩ :
          SchedState 1 1) ([300, 600].map SimEvent.tick) =
        ⟨.Paused, LifeGrid.mkDefault 1 1, LifeGrid.mkDefault 1 1, 0⟩ ∧
      ((⟨.Paused, LifeGrid.mkDefault 1 1, LifeGrid.mkDefault 1 1, 0⟩ :
          SchedState 1 1).step .signal).mode = .Running ∧
      ((⟨.Paused, LifeGrid.mkDefault 1 1, LifeGrid.mkDefault 1 1, 0⟩ :
          SchedState 1 1).step .signal).grid = LifeGrid.mkDefault 1 1 ∧
      (((⟨.Paused, LifeGrid.mkDefault 1 1, LifeGrid.mkDefault 1 1, 0⟩ :
          SchedState 1 1).step .signal).step (.tick 300) =
        { mode := .Running,
          grid := (((⟨.Paused, LifeGrid.mkDefault 1 1, LifeGrid.mkDefault 1 1, 0⟩ :
            SchedState 1 1).step .signal)).grid.next_generation
              (((⟨.Paused, LifeGrid.mkDefault 1 1, LifeGrid.mkDefault 1 1, 0⟩ :
                SchedState 1 1).step .signal)).scratch,
          scratch := (((⟨.Paused, LifeGrid.mkDefault 1 1, LifeGrid.mkDefault 1 1, 0⟩ :
            SchedState 1 1).step .signal)).grid,
          lastUpdate := 300 }) ∧
      ((((⟨.Paused, LifeGrid.mkDefault 1 1, LifeGrid.mkDefault 1 1, 0⟩ :
          SchedState 1 1).step .signal).step (.tick 300)).step (.tick 400) =
        (((⟨.Paused, LifeGrid.mkDefault 1 1, LifeGrid.mkDefault 1 1, 0⟩ :
          SchedState 1 1).step .signal).step (.tick 300)))) :=
  ⟨⟨rfl, by decide, by decide⟩,
    pause_resume_behavior _ [300, 600] 300 400 rfl (by decide) (by decide)⟩

/-- C6: from any live scheduler state (`Running` or `Paused`), closing the
pause channel drives the scheduler to the terminal `Stopped` state, and
every further event leaves the stopped state unchanged — the scheduler
never restarts. -/
theorem close_stops {W H : Nat} (s : SchedState W H) (e : SimEvent)
    (h : s.mode = .Running ∨ s.mode = .Paused) :
    (s.step .close).mode = .Stopped ∧ (s.step .close).step e = s.step .close := by
  rcases s with ⟨m, g, c, l⟩
  rcases h with h | h <;> cases h <;> exact ⟨rfl, rfl⟩

theorem close_stops_witness :
    ((⟨.Running, LifeGrid.mkDefault 1 1, LifeGrid.mkDefault 1 1, 0⟩ :
        SchedState 1 1).mode = .Running ∨
      (⟨.Running, LifeGrid.mkDefault 1 1, LifeGrid.mkDefault 1 1, 0⟩ :
        SchedState 1 1).mode = .Paused) ∧
      (((⟨.Running, LifeGrid.mkDefault 1 1, LifeGrid.mkDefault 1 1, 0⟩ :
          SchedState 1 1).step .close).mode = .Stopped ∧
        ((⟨.Running, LifeGrid.mkDefault 1 1, LifeGrid.mkDefault 1 1, 0⟩ :
            SchedState 1 1).step .close).step .signal =
          (⟨.Running, LifeGrid.mkDefault 1 1, LifeGrid.mkDefault 1 1, 0⟩ :
            SchedState 1 1).step .close) :=
  ⟨Or.inl rfl, close_stops _ .signal (Or.inl rfl)⟩

end SchedState

end Rlife
